import Mathlib

/-!
Verification of the CSV student-records web application (`src/app.py`).

The embedding models:
* a student record (one CSV row under the fixed header
  `RollNo, Name, English, Maths, Science`) as a structure of strings;
* the CSV file state (`read_csv` / `write_csv`) explicitly: reads from a
  missing or unreadable file yield `[]`, writes receive the full record list
  and may fail (the `raises : Bool` parameter stands for an I/O exception
  during the write, which `write_csv` catches and turns into `false`);
* each HTTP handler (`insert_data`, `remove_data`, `update_data`,
  `read_data`, `average`) as a pure function from its request data and the
  current record list to an HTTP status plus the list of `write_csv` calls
  it performed;
* Python `float` values as exact rationals, with the parse
  `float(string)` left as an explicit parameter `parse : String → Option ℚ`
  (`none` models a `ValueError`), and Python's `round(x, 2)` as
  round-half-to-even at two decimal places on rationals;
* the threaded `/average` fan-out sequentially: each chunk's worker appends
  its result list to the queue, and the queue is drained exactly as the
  Python collection loop does (which returns from inside the `while`).
-/

namespace StudentApp

/-- One student record: a row of the CSV file under the header
`["RollNo", "Name", "English", "Maths", "Science"]` (`csv_header`,
`src/app.py` line 19).  All fields are stored as text. -/
structure StudentRecord where
  rollNo : String
  name : String
  english : String
  maths : String
  science : String
deriving DecidableEq, Repr

/-- The observable state of the CSV file for `read_csv`: the file may be
absent, unreadable (opening or parsing raises), or present with rows. -/
inductive FileState where
  | absent : FileState
  | unreadable : FileState
  | present : List StudentRecord → FileState
deriving DecidableEq, Repr

/-- `read_csv` (`src/app.py` lines 43-58): `data` starts as `[]`; when the
file exists it is parsed, and any exception is caught and logged, leaving
`data` as `[]`.  So an absent or unreadable file reads as the empty list. -/
def read_csv : FileState → List StudentRecord
  | FileState.absent => []
  | FileState.unreadable => []
  | FileState.present rows => rows

/-- `write_csv` (`src/app.py` lines 60-75): writes the whole record list,
returning `true` on success and `false` when an exception was raised (the
exception is caught and logged).  `raises` models whether the underlying
file I/O raises. -/
def write_csv (raises : Bool) (_row : List StudentRecord) : Bool :=
  if raises then false else true

/-- The observable outcome of a mutating handler: the HTTP status code of
the JSON response and the arguments of every `write_csv` call the handler
made, in order.  An empty `writeCalls` means the file was never touched. -/
structure HandlerOut where
  status : Nat
  writeCalls : List (List StudentRecord)
deriving DecidableEq, Repr

/-- The record set stored in the file after a handler ran, assuming every
attempted write succeeded: the argument of the last write, or the old
store when no write was attempted. -/
def storeAfter (store : List StudentRecord) (out : HandlerOut) :
    List StudentRecord :=
  match out.writeCalls.getLast? with
  | none => store
  | some l => l

/-- The form data of an insert request (`request.form.to_dict()`): each
header field may be present or missing. -/
structure InsertForm where
  rollNo : Option String
  name : Option String
  english : Option String
  maths : Option String
  science : Option String
deriving DecidableEq, Repr

/-- `insert_data` (`src/app.py` lines 91-115): reject with 400 when a
header field is missing; reject with 400 when some stored record already
has the request's `RollNo`; otherwise append the new record, rewrite the
file, and answer 201 on write success and 500 on write failure. -/
def insert_data (form : InsertForm) (store : List StudentRecord)
    (raises : Bool) : HandlerOut :=
  match form.rollNo, form.name, form.english, form.maths, form.science with
  | some rn, some nm, some en, some ma, some sc =>
    if store.any (fun item => item.rollNo == rn) then
      { status := 400, writeCalls := [] }
    else
      let row := store ++ [StudentRecord.mk rn nm en ma sc]
      if write_csv raises row then
        { status := 201, writeCalls := [row] }
      else
        { status := 500, writeCalls := [row] }
  | _, _, _, _, _ => { status := 400, writeCalls := [] }

/-- `remove_data` (`src/app.py` lines 136-155): keep the records whose
`RollNo` differs from the request's; when nothing was filtered out answer
404 without writing, otherwise rewrite the file with the filtered list and
answer 200 on write success and 500 on write failure. -/
def remove_data (rollno : String) (store : List StudentRecord)
    (raises : Bool) : HandlerOut :=
  let filtered := store.filter (fun row => row.rollNo != rollno)
  if store.length = filtered.length then
    { status := 404, writeCalls := [] }
  else
    if write_csv raises filtered then
      { status := 200, writeCalls := [filtered] }
    else
      { status := 500, writeCalls := [filtered] }

/-- The JSON body of an update request: it must carry `RollNo`
(`data["RollNo"]` is accessed unconditionally) and may carry any subset of
the remaining fields. -/
structure UpdateData where
  rollNo : String
  name : Option String
  english : Option String
  maths : Option String
  science : Option String
deriving DecidableEq, Repr

/-- `row.update(data)` on a matched row: every key present in the request
overwrites the row's value (`RollNo` is always present, and on a matched
row it equals the row's own `RollNo`). -/
def applyUpdate (d : UpdateData) (r : StudentRecord) : StudentRecord :=
  { rollNo := d.rollNo
    name := d.name.getD r.name
    english := d.english.getD r.english
    maths := d.maths.getD r.maths
    science := d.science.getD r.science }

/-- `update_data` (`src/app.py` lines 175-199): every row whose `RollNo`
equals the request's is updated in place; when no row matched answer 404
without writing, otherwise rewrite the file with the updated list and
answer 200 on write success and 500 on write failure. -/
def update_data (d : UpdateData) (store : List StudentRecord)
    (raises : Bool) : HandlerOut :=
  let records := store.map
    (fun row => if row.rollNo == d.rollNo then applyUpdate d row else row)
  let updated := store.any (fun row => row.rollNo == d.rollNo)
  if !updated then
    { status := 404, writeCalls := [] }
  else
    if write_csv raises records then
      { status := 200, writeCalls := [records] }
    else
      { status := 500, writeCalls := [records] }

/-- `read_data` (`src/app.py` lines 201-220), for a request that supplies a
`RollNo` query parameter: return the first matching record with 200, or 404
when no record matches. -/
def read_data (rollno : String) (store : List StudentRecord) :
    Option StudentRecord × Nat :=
  match store.find? (fun row => row.rollNo == rollno) with
  | some r => (some r, 200)
  | none => (none, 404)

/-- Python's round-half-to-even of a rational to the nearest integer:
the floor when the fractional part is below one half, the ceiling when it
is above, and the even neighbour on a tie.  (`Int.fdiv` is floor
division, so `ratFloorAux` is the floor of `num / den`.) -/
def ratFloorAux (q : ℚ) : ℤ :=
  Int.fdiv q.num q.den

/-- Round-half-to-even to the nearest integer, as Python's `round` does.
With `f = ⌊q⌋` and `r = q.num - f * q.den` (so the fractional part of `q`
is `r / q.den`), the fractional part is below one half iff `2r < den` and
above iff `den < 2r`. -/
def roundHalfEven (q : ℚ) : ℤ :=
  let f := ratFloorAux q
  let r := q.num - f * q.den
  if 2 * r < (q.den : ℤ) then f
  else if (q.den : ℤ) < 2 * r then f + 1
  else if f % 2 = 0 then f else f + 1

/-- `round(x, 2)` (`src/app.py` line 236): round to two decimal places,
ties to even. -/
def roundTo2 (q : ℚ) : ℚ :=
  (roundHalfEven (q * 100) : ℚ) / 100

/-- One entry of the `/average` response: the dictionary
`{"RollNo": ..., "Name": ..., "Average": ...}` appended per record in
`calculate_avg` (`src/app.py` lines 241-245). -/
structure AvgEntry where
  rollNo : String
  name : String
  average : ℚ
deriving DecidableEq, Repr

/-- The body of the `for` loop of `calculate_avg` (`src/app.py` lines
229-245) for one record: parse the three mark fields (`parse` models
Python's `float`, `none` a `ValueError`), average and round on success,
and fall back to `avg = 0` when any parse raises; the entry is appended
either way. -/
def calcRow (parse : String → Option ℚ) (r : StudentRecord) : AvgEntry :=
  match parse r.english, parse r.maths, parse r.science with
  | some e, some m, some s =>
    { rollNo := r.rollNo, name := r.name
      average := roundTo2 ((e + m + s) / 3) }
  | _, _, _ => { rollNo := r.rollNo, name := r.name, average := 0 }

/-- `calculate_avg` (`src/app.py` lines 222-247) without the final queue
put: the list of average entries for a chunk of records, one per record,
in order. -/
def calculate_avg (parse : String → Option ℚ) (records : List StudentRecord) :
    List AvgEntry :=
  records.map (calcRow parse)

/-- The chunking of the `/average` handler (`src/app.py` lines 256-266):
`num_thread = num_records // record_per_thread + 1` slices
`records[i*size : min(i*size+size, n)]` for `i` in `range(num_thread)`. -/
def averageChunks (size : Nat) (records : List StudentRecord) :
    List (List StudentRecord) :=
  (List.range (records.length / size + 1)).map
    (fun i => (records.drop (i * size)).take size)

/-- The queue-draining loop of the `/average` handler (`src/app.py` lines
275-280).  `queueItems` is the queue content after all threads were
joined: one result list per chunk.  The Python loop is

`while not result_queue.empty(): all_student_avg.extend(result_queue.get()); ...; return jsonify(all_student_avg), 200`

with the `return` inside the loop body, so the first iteration already
returns; when the queue is empty the function falls through and returns
`None` (modelled as `none`). -/
def averageCollect (queueItems : List (List AvgEntry)) :
    Option (List AvgEntry × Nat) :=
  match queueItems with
  | [] => none
  | x :: _ => some (([] : List AvgEntry) ++ x, 200)

/-- The `/average` handler (`src/app.py` lines 249-280), with the worker
threads run in chunk order: each worker puts `calculate_avg` of its chunk
into the queue, the threads are joined, and the queue is drained by
`averageCollect`. -/
def average (parse : String → Option ℚ) (size : Nat)
    (records : List StudentRecord) : Option (List AvgEntry × Nat) :=
  averageCollect ((averageChunks size records).map (calculate_avg parse))

/-- A concrete parse function used in concrete instances: it accepts the
numerals `0`–`3` and rejects everything else. -/
def parseMark (s : String) : Option ℚ :=
  if s = "0" then some 0
  else if s = "1" then some 1
  else if s = "2" then some 2
  else if s = "3" then some 3
  else none

/-- A record whose marks average to `1/3`, which is not representable in
two decimal places. -/
def recThird : StudentRecord :=
  { rollNo := "1", name := "A", english := "1", maths := "0", science := "0" }

/-- A record whose marks average exactly to `1`. -/
def recOnes : StudentRecord :=
  { rollNo := "1", name := "A", english := "1", maths := "1", science := "1" }

/-- A record whose English mark does not parse as a number. -/
def recBadMark : StudentRecord :=
  { rollNo := "2", name := "B", english := "abc", maths := "1", science := "1" }

/-- An insert form whose `RollNo` collides with `recOnes`. -/
def formDup : InsertForm :=
  { rollNo := some "1", name := some "B", english := some "1"
    maths := some "1", science := some "1" }

/-- An insert form with a fresh `RollNo`. -/
def formFresh : InsertForm :=
  { rollNo := some "9", name := some "C", english := some "2"
    maths := some "2", science := some "2" }

/-- An update request for the absent `RollNo` `"9"`. -/
def updNine : UpdateData :=
  { rollNo := "9", name := some "Z", english := none
    maths := none, science := none }

/-- An update request for the present `RollNo` `"1"`. -/
def updOne : UpdateData :=
  { rollNo := "1", name := some "Z", english := none
    maths := none, science := none }

/-- A store of eleven records with pairwise distinct roll numbers: one more
record than the default chunk size `thread_size = 10`. -/
def records11 : List StudentRecord :=
  [{ rollNo := "1", name := "S1", english := "1", maths := "2", science := "3" },
   { rollNo := "2", name := "S2", english := "1", maths := "2", science := "3" },
   { rollNo := "3", name := "S3", english := "1", maths := "2", science := "3" },
   { rollNo := "4", name := "S4", english := "1", maths := "2", science := "3" },
   { rollNo := "5", name := "S5", english := "1", maths := "2", science := "3" },
   { rollNo := "6", name := "S6", english := "1", maths := "2", science := "3" },
   { rollNo := "7", name := "S7", english := "1", maths := "2", science := "3" },
   { rollNo := "8", name := "S8", english := "1", maths := "2", science := "3" },
   { rollNo := "9", name := "S9", english := "1", maths := "2", science := "3" },
   { rollNo := "10", name := "S10", english := "1", maths := "2", science := "3" },
   { rollNo := "11", name := "S11", english := "1", maths := "2", science := "3" }]

/-! ## Helper lemmas -/

theorem filter_length_eq_iff {α : Type} (p : α → Bool) (l : List α) :
    (l.filter p).length = l.length ↔ ∀ a ∈ l, p a := by
  induction l with
  | nil => simp
  | cons x xs ih =>
    by_cases hx : p x
    · simp [List.filter_cons, hx, ih]
    · simp only [List.filter_cons, hx, if_false, Bool.false_eq_true]
      constructor
      · intro h
        exfalso
        have hle := List.length_filter_le p xs
        simp [List.length_cons] at h
        omega
      · intro h
        exact absurd (h x (by simp)) (by simp [hx])

theorem calcRow_parsed (parse : String → Option ℚ) (r : StudentRecord)
    (e m s : ℚ) (he : parse r.english = some e) (hm : parse r.maths = some m)
    (hs : parse r.science = some s) :
    calcRow parse r =
      { rollNo := r.rollNo, name := r.name
        average := roundTo2 ((e + m + s) / 3) } := by
  simp [calcRow, he, hm, hs]

theorem calcRow_failed (parse : String → Option ℚ) (r : StudentRecord)
    (hfail : parse r.english = none ∨ parse r.maths = none ∨
      parse r.science = none) :
    calcRow parse r = { rollNo := r.rollNo, name := r.name, average := 0 } := by
  cases h1 : parse r.english <;> cases h2 : parse r.maths <;>
    cases h3 : parse r.science <;> simp_all [calcRow]

theorem fdiv_100_3_eq : Int.fdiv 100 3 = 33 := by rfl

/-! ## Claims -/

/-- **C1** (corrected), counterexample to the claim as stated: for the
record `recThird` all three marks parse (to `1`, `0` and `0`), yet the
average computation does not produce the arithmetic mean `(1 + 0 + 0) / 3`
for it — the code rounds to two decimal places, giving `33/100 ≠ 1/3`. -/
theorem C1_counterexample_not_exact_mean :
    parseMark recThird.english = some 1 ∧
    parseMark recThird.maths = some 0 ∧
    parseMark recThird.science = some 0 ∧
    (calculate_avg parseMark [recThird]).map AvgEntry.average ≠
      [((1 : ℚ) + 0 + 0) / 3] := by
  refine ⟨rfl, rfl, rfl, ?_⟩
  have hrow := calcRow_parsed parseMark recThird 1 0 0 rfl rfl rfl
  simp only [calculate_avg, List.map_cons, List.map_nil, hrow]
  intro hcontra
  simp only [List.cons.injEq, and_true] at hcontra
  have : roundTo2 ((1 + 0 + 0) / 3) = (1 : ℚ) / 3 := by
    simpa using hcontra
  norm_num [roundTo2, roundHalfEven, ratFloorAux, fdiv_100_3_eq] at this

/-- **C1** (amended): for every student record whose English, Maths and
Science fields parse as numbers, the average computation produces for that
student an entry whose `Average` is the arithmetic mean
`(English + Maths + Science) / 3` rounded to two decimal places
(round-half-to-even), and it produces one entry per record. -/
theorem C1_average_is_rounded_mean (parse : String → Option ℚ)
    (records : List StudentRecord) (r : StudentRecord) (hr : r ∈ records)
    (e m s : ℚ) (he : parse r.english = some e) (hm : parse r.maths = some m)
    (hs : parse r.science = some s) :
    (calculate_avg parse records).length = records.length ∧
    { rollNo := r.rollNo, name := r.name
      average := roundTo2 ((e + m + s) / 3) } ∈ calculate_avg parse records := by
  refine ⟨by simp [calculate_avg], ?_⟩
  have hrow := calcRow_parsed parse r e m s he hm hs
  exact hrow ▸ List.mem_map_of_mem (calcRow parse) hr

/-- Witness for **C1**: the amended claim applied to the concrete store
`[recOnes]`, whose marks all parse to `1`. -/
theorem C1_witness :
    (calculate_avg parseMark [recOnes]).length = [recOnes].length ∧
    { rollNo := recOnes.rollNo, name := recOnes.name
      average := roundTo2 ((1 + 1 + 1) / 3) } ∈ calculate_avg parseMark [recOnes] :=
  C1_average_is_rounded_mean parseMark [recOnes] recOnes (by simp) 1 1 1 rfl rfl rfl

/-- **C9** (confirmed): for every record with a mark field that does not
parse as a number, the average computation neither fails nor drops the
record — the response still has one entry per record, and that record's
entry carries `Average = 0`. -/
theorem C9_unparsable_mark_yields_zero (parse : String → Option ℚ)
    (records : List StudentRecord) (r : StudentRecord) (hr : r ∈ records)
    (hfail : parse r.english = none ∨ parse r.maths = none ∨
      parse r.science = none) :
    (calculate_avg parse records).length = records.length ∧
    { rollNo := r.rollNo, name := r.name, average := (0 : ℚ) } ∈
      calculate_avg parse records := by
  refine ⟨by simp [calculate_avg], ?_⟩
  have hrow := calcRow_failed parse r hfail
  exact hrow ▸ List.mem_map_of_mem (calcRow parse) hr

/-- Witness for **C9**: the record `recBadMark`, whose English mark `"abc"`
does not parse, still gets an entry with `Average = 0`. -/
theorem C9_witness :
    (calculate_avg parseMark [recBadMark]).length = [recBadMark].length ∧
    { rollNo := recBadMark.rollNo, name := recBadMark.name
      average := (0 : ℚ) } ∈ calculate_avg parseMark [recBadMark] :=
  C9_unparsable_mark_yields_zero parseMark [recBadMark] recBadMark (by simp)
    (Or.inl rfl)

/-- **C3** (confirmed): an insert request whose `RollNo` equals the
`RollNo` of a record already in the store is rejected with HTTP 400, no
write is attempted, and the stored record set is unchanged. -/
theorem C3_insert_duplicate_rejected (form : InsertForm)
    (store : List StudentRecord) (raises : Bool) (r : StudentRecord)
    (hr : r ∈ store) (hdup : form.rollNo = some r.rollNo) :
    (insert_data form store raises).status = 400 ∧
    (insert_data form store raises).writeCalls = [] ∧
    storeAfter store (insert_data form store raises) = store := by
  obtain ⟨frn, fnm, fen, fma, fsc⟩ := form
  simp only at hdup
  subst hdup
  have hany : store.any (fun item => item.rollNo == r.rollNo) = true :=
    List.any_eq_true.mpr ⟨r, hr, by simp⟩
  cases fnm <;> cases fen <;> cases fma <;> cases fsc <;>
    simp [insert_data, hany, storeAfter]

/-- Witness for **C3**: inserting `formDup` (RollNo `"1"`) into the store
`[recOnes]` (which already holds RollNo `"1"`). -/
theorem C3_witness :
    (insert_data formDup [recOnes] false).status = 400 ∧
    (insert_data formDup [recOnes] false).writeCalls = [] ∧
    storeAfter [recOnes] (insert_data formDup [recOnes] false) = [recOnes] :=
  C3_insert_duplicate_rejected formDup [recOnes] false recOnes (by simp) rfl

/-- **C4** (confirmed): an insert request carrying all five fields with a
fresh `RollNo` succeeds when the write succeeds: it answers HTTP 201 and
the new stored record set is the old one with the new record appended at
the end (the full list is passed to the single file write). -/
theorem C4_insert_appends (store : List StudentRecord)
    (rn nm en ma sc : String) (hfresh : ∀ r ∈ store, r.rollNo ≠ rn) :
    (insert_data (InsertForm.mk (some rn) (some nm) (some en) (some ma)
        (some sc)) store false).status = 201 ∧
    (insert_data (InsertForm.mk (some rn) (some nm) (some en) (some ma)
        (some sc)) store false).writeCalls =
      [store ++ [StudentRecord.mk rn nm en ma sc]] ∧
    storeAfter store (insert_data (InsertForm.mk (some rn) (some nm)
        (some en) (some ma) (some sc)) store false) =
      store ++ [StudentRecord.mk rn nm en ma sc] := by
  have hany : store.any (fun item => item.rollNo == rn) = false := by
    simp only [List.any_eq_false]
    intro r hrm
    simpa using hfresh r hrm
  simp [insert_data, hany, write_csv, storeAfter]

/-- Witness for **C4**: inserting `formFresh` (RollNo `"9"`) into the
store `[recOnes]`. -/
theorem C4_witness :
    (insert_data (InsertForm.mk (some "9") (some "C") (some "2") (some "2")
        (some "2")) [recOnes] false).status = 201 ∧
    (insert_data (InsertForm.mk (some "9") (some "C") (some "2") (some "2")
        (some "2")) [recOnes] false).writeCalls =
      [[recOnes] ++ [StudentRecord.mk "9" "C" "2" "2" "2"]] ∧
    storeAfter [recOnes] (insert_data (InsertForm.mk (some "9") (some "C")
        (some "2") (some "2") (some "2")) [recOnes] false) =
      [recOnes] ++ [StudentRecord.mk "9" "C" "2" "2" "2"] :=
  C4_insert_appends [recOnes] "9" "C" "2" "2" "2" (by decide)

/-- **C5** (confirmed): for a `RollNo` matching no stored record, the
remove and the update operations each answer HTTP 404 without touching the
store — and they answer 404 exactly when no stored record has that
`RollNo`. -/
theorem C5_remove_update_notfound_iff (store : List StudentRecord)
    (raises : Bool) (rollno : String) (d : UpdateData)
    (hd : d.rollNo = rollno) :
    (((remove_data rollno store raises).status = 404 ∧
        (remove_data rollno store raises).writeCalls = [] ∧
        storeAfter store (remove_data rollno store raises) = store) ↔
      ∀ r ∈ store, r.rollNo ≠ rollno) ∧
    (((update_data d store raises).status = 404 ∧
        (update_data d store raises).writeCalls = [] ∧
        storeAfter store (update_data d store raises) = store) ↔
      ∀ r ∈ store, r.rollNo ≠ rollno) := by
  subst hd
  constructor
  · by_cases hc : store.length =
        (store.filter (fun row => row.rollNo != d.rollNo)).length
    · have hall : ∀ r ∈ store, r.rollNo ≠ d.rollNo := by
        have := (filter_length_eq_iff
          (fun row => row.rollNo != d.rollNo) store).mp hc.symm
        intro r hrm
        simpa using this r hrm
      simp [remove_data, hc, storeAfter, hall]
      exact hall
    · have hnotall : ¬ ∀ r ∈ store, r.rollNo ≠ d.rollNo := by
        intro hall
        exact hc (((filter_length_eq_iff
          (fun row => row.rollNo != d.rollNo) store).mpr
          (fun a ha => by simpa using hall a ha)).symm)
      cases raises <;> simp [remove_data, hc, write_csv, hnotall]
  · by_cases hu : store.any (fun row => row.rollNo == d.rollNo) = true
    · obtain ⟨r, hrm, hreq⟩ := List.any_eq_true.mp hu
      have hnotall : ¬ ∀ r ∈ store, r.rollNo ≠ d.rollNo := by
        intro hall
        exact hall r hrm (by simpa using hreq)
      cases raises <;> simp [update_data, hu, write_csv, hnotall]
    · have hall : ∀ r ∈ store, r.rollNo ≠ d.rollNo := by
        intro r hrm
        have := List.any_eq_false.mp (Bool.eq_false_iff.mpr hu) r hrm
        simpa using this
      simp [update_data, hu, storeAfter, hall]
      exact hall

/-- Witness for **C5**: removing and updating the absent RollNo `"9"` on
the store `[recOnes]` (which only holds RollNo `"1"`). -/
theorem C5_witness :
    (((remove_data "9" [recOnes] false).status = 404 ∧
        (remove_data "9" [recOnes] false).writeCalls = [] ∧
        storeAfter [recOnes] (remove_data "9" [recOnes] false) = [recOnes]) ↔
      ∀ r ∈ [recOnes], r.rollNo ≠ "9") ∧
    (((update_data updNine [recOnes] false).status = 404 ∧
        (update_data updNine [recOnes] false).writeCalls = [] ∧
        storeAfter [recOnes] (update_data updNine [recOnes] false) =
          [recOnes]) ↔
      ∀ r ∈ [recOnes], r.rollNo ≠ "9") :=
  C5_remove_update_notfound_iff [recOnes] false "9" updNine rfl

/-- **C6** (confirmed): removing a `RollNo` that is present succeeds (when
the write succeeds) and rewrites the store with exactly the records whose
`RollNo` differs, in their original relative order: the new store is a
sublist of the old one, contains no record with the removed `RollNo`, and
keeps every other record. -/
theorem C6_remove_deletes_matching (store : List StudentRecord)
    (rollno : String) (r0 : StudentRecord) (hr0 : r0 ∈ store)
    (hmatch : r0.rollNo = rollno) :
    (remove_data rollno store false).status = 200 ∧
    (remove_data rollno store false).writeCalls =
      [storeAfter store (remove_data rollno store false)] ∧
    (storeAfter store (remove_data rollno store false)).Sublist store ∧
    (∀ r ∈ storeAfter store (remove_data rollno store false),
      r.rollNo ≠ rollno) ∧
    (∀ r ∈ store, r.rollNo ≠ rollno →
      r ∈ storeAfter store (remove_data rollno store false)) := by
  have hne : ¬ store.length =
      (store.filter (fun row => row.rollNo != rollno)).length := by
    intro hc
    have := (filter_length_eq_iff
      (fun row => row.rollNo != rollno) store).mp hc.symm r0 hr0
    simp [hmatch] at this
  have key : remove_data rollno store false =
      { status := 200
        writeCalls := [store.filter (fun row => row.rollNo != rollno)] } := by
    simp [remove_data, hne, write_csv]
  rw [key]
  have hafter : storeAfter store
      ({ status := 200
         writeCalls := [store.filter (fun row => row.rollNo != rollno)] } :
        HandlerOut) = store.filter (fun row => row.rollNo != rollno) := by
    simp [storeAfter]
  rw [hafter]
  refine ⟨rfl, rfl, List.filter_sublist store, ?_, ?_⟩
  · intro r hrm
    have := (List.mem_filter.mp hrm).2
    simpa using this
  · intro r hrm hrn
    exact List.mem_filter.mpr ⟨hrm, by simpa using hrn⟩

/-- Witness for **C6**: removing the present RollNo `"1"` from the store
`[recOnes]`. -/
theorem C6_witness :
    (remove_data "1" [recOnes] false).status = 200 ∧
    (remove_data "1" [recOnes] false).writeCalls =
      [storeAfter [recOnes] (remove_data "1" [recOnes] false)] ∧
    (storeAfter [recOnes] (remove_data "1" [recOnes] false)).Sublist
      [recOnes] ∧
    (∀ r ∈ storeAfter [recOnes] (remove_data "1" [recOnes] false),
      r.rollNo ≠ "1") ∧
    (∀ r ∈ [recOnes], r.rollNo ≠ "1" →
      r ∈ storeAfter [recOnes] (remove_data "1" [recOnes] false)) :=
  C6_remove_deletes_matching [recOnes] "1" recOnes (by simp) rfl

/-! Helper lemmas for the uniqueness invariant. -/

theorem storeAfter_map_nodup {store : List StudentRecord} {out : HandlerOut}
    (hnd : (store.map StudentRecord.rollNo).Nodup)
    (hw : ∀ l ∈ out.writeCalls, (l.map StudentRecord.rollNo).Nodup) :
    ((storeAfter store out).map StudentRecord.rollNo).Nodup := by
  unfold storeAfter
  cases hlast : out.writeCalls.getLast? with
  | none => exact hnd
  | some l => exact hw l (List.mem_of_mem_getLast? hlast)

theorem insert_writeCalls_nodup (form : InsertForm)
    (store : List StudentRecord) (raises : Bool)
    (hnd : (store.map StudentRecord.rollNo).Nodup) :
    ∀ l ∈ (insert_data form store raises).writeCalls,
      (l.map StudentRecord.rollNo).Nodup := by
  obtain ⟨frn, fnm, fen, fma, fsc⟩ := form
  cases frn with
  | none => simp [insert_data]
  | some rn =>
  cases fnm with
  | none => simp [insert_data]
  | some nm =>
  cases fen with
  | none => simp [insert_data]
  | some en =>
  cases fma with
  | none => simp [insert_data]
  | some ma =>
  cases fsc with
  | none => simp [insert_data]
  | some sc =>
  by_cases hany : store.any (fun item => item.rollNo == rn) = true
  · have hex : ∃ x ∈ store, x.rollNo = rn := by simpa using hany
    simp [insert_data, hex]
  · have hex : ¬ ∃ x ∈ store, x.rollNo = rn := by simpa using hany
    have hnotin : rn ∉ store.map StudentRecord.rollNo := by
      intro hmem
      obtain ⟨x, hx, hxeq⟩ := List.mem_map.mp hmem
      exact hex ⟨x, hx, hxeq⟩
    have happ : ((store ++ [StudentRecord.mk rn nm en ma sc]).map
        StudentRecord.rollNo).Nodup := by
      rw [List.map_append, List.nodup_append]
      refine ⟨hnd, by simp, ?_⟩
      intro a ha hb
      simp only [List.map_cons, List.map_nil, List.mem_singleton] at hb
      subst hb
      exact hnotin ha
    cases raises <;> simp [insert_data, hex, write_csv] <;> simpa using happ

theorem remove_writeCalls_nodup (rollno : String)
    (store : List StudentRecord) (raises : Bool)
    (hnd : (store.map StudentRecord.rollNo).Nodup) :
    ∀ l ∈ (remove_data rollno store raises).writeCalls,
      (l.map StudentRecord.rollNo).Nodup := by
  have hsub : ((store.filter (fun row => row.rollNo != rollno)).map
      StudentRecord.rollNo).Nodup :=
    List.Nodup.sublist (List.Sublist.map _ (List.filter_sublist store)) hnd
  by_cases hc : store.length =
      (store.filter (fun row => row.rollNo != rollno)).length
  · simp [remove_data, hc]
  · cases raises <;> simp [remove_data, hc, write_csv] <;> simpa using hsub

theorem update_map_rollNo (d : UpdateData) (store : List StudentRecord) :
    ((store.map (fun row =>
        if row.rollNo == d.rollNo then applyUpdate d row else row)).map
      StudentRecord.rollNo) = store.map StudentRecord.rollNo := by
  rw [List.map_map]
  apply List.map_congr_left
  intro row hrow
  by_cases h : row.rollNo = d.rollNo
  · simp [h, applyUpdate]
  · simp [h]

theorem update_writeCalls_nodup (d : UpdateData)
    (store : List StudentRecord) (raises : Bool)
    (hnd : (store.map StudentRecord.rollNo).Nodup) :
    ∀ l ∈ (update_data d store raises).writeCalls,
      (l.map StudentRecord.rollNo).Nodup := by
  have hkeep : ((store.map (fun row =>
      if row.rollNo == d.rollNo then applyUpdate d row else row)).map
        StudentRecord.rollNo).Nodup := by
    rw [update_map_rollNo]
    exact hnd
  simp only [update_data]
  cases hbool : store.any (fun row => row.rollNo == d.rollNo) with
  | false => simp
  | true => cases raises <;> simp [write_csv] <;> simpa using hkeep

/-- **C7** (confirmed): uniqueness of `RollNo` is an invariant.  If the
stored record set has pairwise distinct `RollNo` values, then after any
insert, remove or update — successful or failed — the stored set still has
pairwise distinct `RollNo` values, and so does every record list the
handler passed to a file write. -/
theorem C7_rollno_uniqueness_invariant (store : List StudentRecord)
    (raises : Bool) (form : InsertForm) (rollno : String) (d : UpdateData)
    (hnd : (store.map StudentRecord.rollNo).Nodup) :
    ((storeAfter store
        (insert_data form store raises)).map StudentRecord.rollNo).Nodup ∧
    ((storeAfter store
        (remove_data rollno store raises)).map StudentRecord.rollNo).Nodup ∧
    ((storeAfter store
        (update_data d store raises)).map StudentRecord.rollNo).Nodup ∧
    (∀ l ∈ (insert_data form store raises).writeCalls,
      (l.map StudentRecord.rollNo).Nodup) ∧
    (∀ l ∈ (remove_data rollno store raises).writeCalls,
      (l.map StudentRecord.rollNo).Nodup) ∧
    (∀ l ∈ (update_data d store raises).writeCalls,
      (l.map StudentRecord.rollNo).Nodup) :=
  ⟨storeAfter_map_nodup hnd (insert_writeCalls_nodup form store raises hnd),
   storeAfter_map_nodup hnd (remove_writeCalls_nodup rollno store raises hnd),
   storeAfter_map_nodup hnd (update_writeCalls_nodup d store raises hnd),
   insert_writeCalls_nodup form store raises hnd,
   remove_writeCalls_nodup rollno store raises hnd,
   update_writeCalls_nodup d store raises hnd⟩

/-- Witness for **C7**: the invariant applied to the store `[recOnes]`
(distinct roll numbers) for a fresh insert, a present remove and a present
update. -/
theorem C7_witness :
    ((storeAfter [recOnes]
        (insert_data formFresh [recOnes] false)).map
      StudentRecord.rollNo).Nodup ∧
    ((storeAfter [recOnes]
        (remove_data "1" [recOnes] false)).map StudentRecord.rollNo).Nodup ∧
    ((storeAfter [recOnes]
        (update_data updOne [recOnes] false)).map
      StudentRecord.rollNo).Nodup ∧
    (∀ l ∈ (insert_data formFresh [recOnes] false).writeCalls,
      (l.map StudentRecord.rollNo).Nodup) ∧
    (∀ l ∈ (remove_data "1" [recOnes] false).writeCalls,
      (l.map StudentRecord.rollNo).Nodup) ∧
    (∀ l ∈ (update_data updOne [recOnes] false).writeCalls,
      (l.map StudentRecord.rollNo).Nodup) :=
  C7_rollno_uniqueness_invariant [recOnes] false formFresh "1" updOne
    (by simp)

/-- **C8** (confirmed): when the file write raises, `write_csv` catches
the exception and reports failure (`false`), and every mutating handler
that attempted the write answers a generic HTTP 500 after exactly one
write attempt — no retry. -/
theorem C8_write_failure_reports_500 (row store : List StudentRecord)
    (form : InsertForm) (rollno : String) (d : UpdateData) :
    write_csv true row = false ∧
    ((insert_data form store true).writeCalls ≠ [] →
      (insert_data form store true).status = 500 ∧
      (insert_data form store true).writeCalls.length = 1) ∧
    ((remove_data rollno store true).writeCalls ≠ [] →
      (remove_data rollno store true).status = 500 ∧
      (remove_data rollno store true).writeCalls.length = 1) ∧
    ((update_data d store true).writeCalls ≠ [] →
      (update_data d store true).status = 500 ∧
      (update_data d store true).writeCalls.length = 1) := by
  refine ⟨rfl, ?_, ?_, ?_⟩
  · obtain ⟨frn, fnm, fen, fma, fsc⟩ := form
    simp only [insert_data]
    cases frn <;> cases fnm <;> cases fen <;> cases fma <;> cases fsc <;>
      try exact fun h => absurd rfl h
    rename_i rn nm en ma sc
    cases hbool : store.any (fun item => item.rollNo == rn) with
    | false =>
      have hex : ¬ ∃ x ∈ store, x.rollNo = rn := by
        rintro ⟨x, hx, he⟩
        exact (List.any_eq_false.mp hbool x hx) (by simp [he])
      simp [hex, write_csv]
    | true =>
      have hex : ∃ x ∈ store, x.rollNo = rn := by simpa using hbool
      simp [hex, write_csv]
  · simp only [remove_data]
    by_cases hc : store.length =
        (store.filter (fun r => r.rollNo != rollno)).length <;>
      simp [hc, write_csv]
  · simp only [update_data]
    cases hbool : store.any (fun r => r.rollNo == d.rollNo) <;>
      simp [write_csv]

/-- Witness for **C8**: a raising write during a fresh insert into the
empty store answers HTTP 500 after one write attempt. -/
theorem C8_witness :
    write_csv true [] = false ∧
    (insert_data formFresh [] true).status = 500 ∧
    (insert_data formFresh [] true).writeCalls.length = 1 :=
  ⟨(C8_write_failure_reports_500 [] [] formFresh "1" updOne).1,
   (C8_write_failure_reports_500 [] [] formFresh "1" updOne).2.1
     (by decide)⟩

/-- **C10** (confirmed): when the CSV file is absent or unreadable,
`read_csv` yields the empty record set, so the read endpoint and the
remove and update operations all answer HTTP 404 (without writing) rather
than failing. -/
theorem C10_missing_file_reads_empty (fs : FileState)
    (hfs : fs = FileState.absent ∨ fs = FileState.unreadable)
    (rollno : String) (d : UpdateData) (raises : Bool) :
    read_csv fs = [] ∧
    (read_data rollno (read_csv fs)).2 = 404 ∧
    (remove_data rollno (read_csv fs) raises).status = 404 ∧
    (remove_data rollno (read_csv fs) raises).writeCalls = [] ∧
    (update_data d (read_csv fs) raises).status = 404 ∧
    (update_data d (read_csv fs) raises).writeCalls = [] := by
  rcases hfs with h | h <;> subst h <;>
    simp [read_csv, read_data, remove_data, update_data]

/-- Witness for **C10**: the absent file, read and mutated under RollNo
`"1"`. -/
theorem C10_witness :
    read_csv FileState.absent = [] ∧
    (read_data "1" (read_csv FileState.absent)).2 = 404 ∧
    (remove_data "1" (read_csv FileState.absent) false).status = 404 ∧
    (remove_data "1" (read_csv FileState.absent) false).writeCalls = [] ∧
    (update_data updOne (read_csv FileState.absent) false).status = 404 ∧
    (update_data updOne (read_csv FileState.absent) false).writeCalls = [] :=
  C10_missing_file_reads_empty FileState.absent (Or.inl rfl) "1" updOne false

/-! The chunking of `/average` does partition the record list: the
concatenation of the chunks is the whole list. -/

theorem rangeChunks_flatten {α : Type} (size : Nat) :
    ∀ (k : Nat) (l : List α), l.length ≤ k * size →
      ((List.range k).map (fun i => (l.drop (i * size)).take size)).flatten =
        l := by
  intro k
  induction k with
  | zero =>
    intro l hl
    simp only [Nat.zero_mul, Nat.le_zero] at hl
    simp [List.length_eq_zero.mp hl]
  | succ k ih =>
    intro l hl
    rw [List.range_succ_eq_map, List.map_cons, List.map_map]
    have hcomp : ((fun i => (l.drop (i * size)).take size) ∘ Nat.succ) =
        (fun i => ((l.drop size).drop (i * size)).take size) := by
      funext i
      simp only [Function.comp_apply]
      rw [List.drop_drop, Nat.succ_mul, Nat.add_comm]
    rw [hcomp]
    have hlen : (l.drop size).length ≤ k * size := by
      rw [List.length_drop]
      have hl' : l.length ≤ k * size + size := by
        calc l.length ≤ (k + 1) * size := hl
          _ = k * size + size := by ring
      omega
    simp only [List.flatten_cons]
    rw [ih (l.drop size) hlen]
    simp [List.take_append_drop]

theorem averageChunks_flatten (size : Nat) (hsize : 0 < size)
    (records : List StudentRecord) :
    (averageChunks size records).flatten = records := by
  apply rangeChunks_flatten
  have hmod := Nat.mod_lt records.length hsize
  have hdiv := Nat.div_add_mod records.length size
  have h1 : records.length ≤ size * (records.length / size) + size := by
    conv_lhs => rw [← hdiv]
    exact Nat.add_le_add_left (Nat.le_of_lt hmod) _
  calc records.length ≤ size * (records.length / size) + size := h1
    _ = (records.length / size + 1) * size := by ring

/-- **C2** (code bug): the `/average` endpoint does *not* return one
average entry per stored record.  At the failing input `records11`
(eleven records, with the default chunk size `thread_size = 10`) the
chunking does partition the list into two chunks, one worker result per
chunk reaches the queue, but the endpoint answers HTTP 200 with only the
10 entries of the first collected chunk: the `return` statement of the
handler sits inside the queue-draining `while` loop (`src/app.py` lines
276-280), so the loop exits after the first queue item. -/
theorem C2_average_drops_records :
    records11.length = 11 ∧
    (averageChunks 10 records11).length = 2 ∧
    (averageChunks 10 records11).flatten = records11 ∧
    (average parseMark 10 records11).map
      (fun p => (p.1.length, p.2)) = some (10, 200) :=
  ⟨rfl, rfl, rfl, rfl⟩

end StudentApp
